import Mathlib

/-!
Shallow embedding of the medical-assistant repository
(src/pdf_utils.py, src/rag.py, src/helper.py, app.py) and proofs of the
specification claims about it.

Python strings are modelled as Lean `String`/`List Char`; machine floats used
only as retriever weights are modelled as `ℚ` (the code compares and stores
them, it never does lossy float arithmetic on them); fallible Python code
(raising exceptions) is modelled with `Except String`.
-/

namespace MedAssist

/-- A text block of a PDF page as returned by `page.get_text("blocks")` in
`load_pdf_with_fitz`: the bounding-box origin `(x0, y0)` (used only for the
top-to-bottom, left-to-right sort) and the block text `b[4]`. -/
structure Block where
  x0 : Nat
  y0 : Nat
  content : String
deriving Repr, DecidableEq

/-- A PDF page: its list of text blocks, in the order fitz reports them. -/
abbrev Page := List Block

/-- A PDF input to `fitz.open`: `none` when the file cannot be opened
(`fitz.open` raises), otherwise the list of pages. -/
abbrev PdfFile := Option (List Page)

/-- A LangChain `Document` as produced by `load_pdf_with_fitz` and consumed by
`split_docs` / `upload_in_batches`: `page_content` plus the metadata dict
`{"source": path, "page": i + 1}`. The field `page` is the metadata value
`"page"`. -/
structure Doc where
  page_content : String
  source : String
  page : Nat
deriving Repr, DecidableEq

/-- `blocks_sorted = sorted(blocks, key=lambda b: (b[1], b[0]))`:
stable sort of the blocks by the lexicographic key `(y0, x0)`, top-to-bottom
then left-to-right (Python's `sorted` is stable; so is insertion sort). -/
def sortBlocks (bs : List Block) : List Block :=
  bs.insertionSort (fun a b => a.y0 < b.y0 ∨ (a.y0 = b.y0 ∧ a.x0 ≤ b.x0))

/-- Python's `bool(s.strip())`: after stripping leading and trailing
whitespace a string is truthy exactly when it has a non-whitespace
character. -/
def stripTruthy (s : String) : Bool :=
  s.toList.any (fun c => !c.isWhitespace)

/-- `"\n".join([b[4] for b in blocks_sorted if b[4].strip()])`: the text of a
page, keeping only blocks whose text has a non-whitespace character. -/
def pageText (p : Page) : String :=
  String.intercalate "\n"
    ((sortBlocks p).filterMap
      (fun b => if stripTruthy b.content then some b.content else none))

/-- `load_pdf_with_fitz(path)` from src/pdf_utils.py: opens the PDF (an
unopenable file makes `fitz.open` raise, modelled as `Except.error`), and for
each page builds the sorted, filtered text; pages whose text is empty are
omitted; a kept page `i` gets metadata `{"source": path, "page": i + 1}`. -/
def load_pdf_with_fitz (pdf : PdfFile) (path : String) : Except String (List Doc) :=
  match pdf with
  | none => Except.error ("cannot open file: " ++ path)
  | some pages => Except.ok <|
      pages.enum.filterMap (fun ip =>
        let text := pageText ip.2
        if text ≠ "" then
          some { page_content := text, source := path, page := ip.1 + 1 }
        else none)

/-!
### The character-window chunker

`split_docs` in src/pdf_utils.py delegates the actual splitting to
`RecursiveCharacterTextSplitter(chunk_size, chunk_overlap)`, an external
library whose code is not part of this repository.
-/

/-- The fueled worker of `windows`: `fuel` bounds the recursion depth and is
always called with `fuel ≥ cs.length`, which makes the fuel-exhausted branch
unreachable (each step drops at least one character from a non-empty list). -/
def windowsGo (size step : Nat) : Nat → List Char → List (List Char)
  | _, [] => []
  | 0, cs => [cs]
  | fuel + 1, cs =>
      if cs.length ≤ size then [cs]
      else cs.take size :: windowsGo size step fuel (cs.drop (max 1 step))

/-- Modelled from the spec: the text splitter used by `split_docs` (the
library code of `RecursiveCharacterTextSplitter` is not in the repository).
The spec describes `chunk` as producing "overlapping windows of `size`
characters with `overlap` characters shared between consecutive windows".
`windows size step cs` produces windows of at most `size` characters whose
start positions advance by `step = size - overlap`; `max 1 step` only makes
the definition total, the intended use has `step ≥ 1` (i.e. `overlap < size`). -/
def windows (size step : Nat) (cs : List Char) : List (List Char) :=
  windowsGo size step cs.length cs

/-- The chunks produced from a single document: each window of the document's
text becomes a chunk carrying the document's metadata unchanged. -/
def chunkDoc (size overlap : Nat) (d : Doc) : List Doc :=
  (windows size (size - overlap) d.page_content.toList).map
    (fun w => { d with page_content := String.mk w })

/-- Modelled from the spec: `split_docs(docs, chunk_size, chunk_overlap)` from
src/pdf_utils.py. The spec states "`overlap < size` is a precondition;
violating it is a configuration error", raised by the splitter itself when it
is invoked; each document is split independently, so windows never cross page
boundaries. -/
def split_docs (docs : List Doc) (size overlap : Nat) : Except String (List Doc) :=
  if size ≤ overlap then
    Except.error "configuration error: chunk overlap must be smaller than chunk size"
  else
    Except.ok (docs.flatMap (chunkDoc size overlap))

/-- Concatenation of a chunk sequence after removing the duplicated overlap
spans: the first window is kept whole, each later window contributes its text
with the first `overlap` characters (shared with its predecessor) removed. -/
def reassemble (overlap : Nat) : List (List Char) → List Char
  | [] => []
  | w :: ws => w ++ (ws.map (List.drop overlap)).flatten

/-!
### Ingestion ledger (ingested_books.json)

The ledger file holds a JSON object mapping `"Medical_Course"` to the list of
ingested coursebook filenames; `load_ingested_books` initialises it to
`{"Medical_Course": []}` when absent.
-/

/-- The parsed content of ingested_books.json. -/
structure Ledger where
  medical_course : List String
deriving Repr, DecidableEq

/-- `book_already_ingested(pdf_name)`: membership in the ledger list. -/
def book_already_ingested (pdf_name : String) (ledger : Ledger) : Bool :=
  pdf_name ∈ ledger.medical_course

/-- `mark_book_ingested(pdf_name)`: appends the name to the ledger list only
when it is not already present, then saves. -/
def mark_book_ingested (pdf_name : String) (ledger : Ledger) : Ledger :=
  if pdf_name ∈ ledger.medical_course then ledger
  else { medical_course := ledger.medical_course ++ [pdf_name] }

/-- `os.path.basename(pdf_path)`: the final path component, i.e. the
characters after the last `/` (the whole path when it has none). -/
def basename (path : String) : String :=
  String.mk (path.toList.foldl (fun acc c => if c = '/' then [] else acc ++ [c]) [])

/-!
### Batched upload (`upload_in_batches`)

The loop `for i in range(0, len(docs), batch_size)` walks the chunk list in
consecutive batches of `batch_size`; this is exactly `windows bsz bsz` over a
generic list, so batching is modelled with its own structural copy here.
-/

/-- The fueled worker of `toBatches`; `fuel ≥ docs.length` makes the
fuel-exhausted branch unreachable. -/
def toBatchesGo (bsz : Nat) : Nat → List Doc → List (List Doc)
  | _, [] => []
  | 0, docs => [docs]
  | fuel + 1, docs => docs.take bsz :: toBatchesGo bsz fuel (docs.drop (max 1 bsz))

/-- The consecutive batches `docs[i:i+batch_size]` for
`i in range(0, len(docs), batch_size)`. `max 1 bsz` only makes the definition
total; the code always calls it with `batch_size = 100`. -/
def toBatches (bsz : Nat) (docs : List Doc) : List (List Doc) :=
  toBatchesGo bsz docs.length docs

/-- The observable outcome of `upload_in_batches`: the returned
`vector_store` (`none` when the function returned `None`), the chunks actually
written to the vector store, and the 0-based indices of the batches whose
upload was attempted. -/
structure UploadOutcome where
  store : Option Unit
  written : List Doc
  attempted : List Nat
deriving Repr, DecidableEq

/-- The batch loop of `upload_in_batches`, batch `i` onward. `ok j` tells
whether the (0-based) `j`-th batch upload call succeeds. A failing first
batch (`i = 0`) returns `None` at once (remaining batches not attempted); a
failing later batch is logged and skipped (`continue`); a succeeding batch is
appended to the store, which is created by the first batch. -/
def uploadGo (ok : Nat → Bool) : Nat → List (List Doc) → UploadOutcome → UploadOutcome
  | _, [], acc => acc
  | i, b :: rest, acc =>
      let acc1 : UploadOutcome := { acc with attempted := acc.attempted ++ [i] }
      if ok i then
        uploadGo ok (i + 1) rest
          { acc1 with
            store := if i = 0 then some () else acc1.store
            written := acc1.written ++ b }
      else if i = 0 then
        { acc1 with store := none }
      else
        uploadGo ok (i + 1) rest acc1

/-- `upload_in_batches(docs, ..., batch_size)` from src/pdf_utils.py, with the
effect of each Pinecone call abstracted by `ok`. With an empty chunk list the
loop body never runs and `vector_store` stays `None`. -/
def upload_in_batches (ok : Nat → Bool) (docs : List Doc) (bsz : Nat) : UploadOutcome :=
  uploadGo ok 0 (toBatches bsz docs) { store := none, written := [], attempted := [] }

/-!
### Coursebook ingestion (`process_coursebook_pdf`)
-/

/-- The outcome of a coursebook ingestion run. -/
inductive IngestOutcome where
  /-- the dedup guard hit: returned `None` before reading the file -/
  | skipped
  /-- `upload_in_batches` returned `None`: nothing (or only a failed first
  batch) was uploaded and the ledger was not touched -/
  | aborted
  /-- a vector store was returned: `n` chunks were produced and the
  filename was marked ingested -/
  | uploaded (n : Nat)
deriving Repr, DecidableEq

/-- The observable result of `process_coursebook_pdf`: the ledger after the
call, the outcome, whether the PDF file was opened at all, and the
write/attempt trace of the batch upload. -/
structure CoursebookResult where
  ledger : Ledger
  outcome : IngestOutcome
  readFile : Bool
  written : List Doc
  attempted : List Nat
deriving Repr, DecidableEq

/-- The part of `process_coursebook_pdf` after extraction and chunking: upload
the chunks in batches of 100 and mark the filename ingested exactly when a
vector store was returned. -/
def coursebook_upload_step (ledger : Ledger) (filename : String)
    (chunks : List Doc) (ok : Nat → Bool) : CoursebookResult :=
  let up := upload_in_batches ok chunks 100
  match up.store with
  | some _ =>
      { ledger := mark_book_ingested filename ledger
        outcome := IngestOutcome.uploaded chunks.length
        readFile := true
        written := up.written
        attempted := up.attempted }
  | none =>
      { ledger := ledger
        outcome := IngestOutcome.aborted
        readFile := true
        written := up.written
        attempted := up.attempted }

/-- `process_coursebook_pdf(pdf_path, embedding, index_name)` from
src/pdf_utils.py: dedup guard on the basename first (returning without
touching the file), then extract, chunk with the defaults
`chunk_size=1000, chunk_overlap=200`, upload in batches of 100 into the
`Medical_Course` namespace, and mark the ledger on success. An extraction
failure propagates (`Except.error`). -/
def process_coursebook_pdf (ledger : Ledger) (pdf : PdfFile) (path : String)
    (ok : Nat → Bool) : Except String CoursebookResult :=
  let filename := basename path
  if book_already_ingested filename ledger then
    Except.ok
      { ledger := ledger, outcome := IngestOutcome.skipped
        readFile := false, written := [], attempted := [] }
  else
    match load_pdf_with_fitz pdf path with
    | Except.error e => Except.error e
    | Except.ok docs =>
        match split_docs docs 1000 200 with
        | Except.error e => Except.error e
        | Except.ok chunks => Except.ok (coursebook_upload_step ledger filename chunks ok)

/-!
### Patient ingestion (`process_patient_pdf`)
-/

/-- The external effects visible to `process_patient_pdf`: whether the file
exists on disk, the PDF content behind it, whether `index.delete` on the
patient namespace succeeds, and whether the single
`PineconeVectorStore.from_documents` upload call succeeds. -/
structure PatientEnv where
  fileExists : Bool
  pdf : PdfFile
  deleteOk : Bool
  uploadOk : Bool

/-- `process_patient_pdf(pdf_path, patient_id, ...)` from src/pdf_utils.py:
raises when the file is missing or extraction yields no documents; chunks
with the given size/overlap; swallows any failure of the namespace delete
(logged as a benign first-upload case, so the result does not depend on
`deleteOk`); then uploads the whole chunk set in one call — and a failure of
that upload is caught, logged, and turned into a `None` return value
(`Except.ok none`), not re-raised. -/
def process_patient_pdf (env : PatientEnv) (path patient_id : String)
    (chunk_size chunk_overlap : Nat) : Except String (Option Unit) :=
  if env.fileExists = false then
    Except.error ("PDF not found: " ++ path)
  else
    match load_pdf_with_fitz env.pdf path with
    | Except.error e => Except.error e
    | Except.ok docs =>
        if docs.isEmpty then
          Except.error ("No extractable text in: " ++ path)
        else
          match split_docs docs chunk_size chunk_overlap with
          | Except.error e => Except.error e
          | Except.ok _chunks =>
              if env.uploadOk then Except.ok (some ()) else Except.ok none

/-!
### Chat model defaults (src/helper.py)
-/

/-- The keyword-argument defaults of `get_chat_model` in src/helper.py, which
are passed through to the `ChatOpenAI` constructor. -/
structure ChatModelParams where
  model : String
  timeout : Nat
  max_retries : Nat
deriving Repr, DecidableEq

/-- `get_chat_model`'s signature defaults:
`model="deepseek/deepseek-chat", timeout=60, max_retries=2`. -/
def get_chat_model_defaults : ChatModelParams :=
  { model := "deepseek/deepseek-chat", timeout := 60, max_retries := 2 }

/-!
### Retrieval composition (src/rag.py `build_retrievers` and the app's
search-mode dispatch)

The retriever weights are Python floats `(0.9, 0.1)`; the code only stores
and compares them, so they are modelled as exact rationals.
-/

/-- `vs.as_retriever(search_kwargs={"k": k, "namespace": ns})`: a similarity
retriever scoped to one namespace (`none` models the Python value `None`,
i.e. the index's default namespace) with result limit `k`. -/
structure SingleRetriever where
  ns : Option String
  k : Nat
deriving Repr, DecidableEq

/-- What `build_retrievers` can return: either the course retriever alone, or
`EnsembleRetriever(retrievers=[course, patient], weights=list(weights))`. -/
inductive Retriever where
  | single (r : SingleRetriever)
  | ensemble (course patient : SingleRetriever) (weights : ℚ × ℚ)
deriving Repr, DecidableEq

/-- The default of the `weights` keyword of `build_retrievers`:
`(0.9, 0.1)`. -/
def build_retrievers_default_weights : ℚ × ℚ := (9 / 10, 1 / 10)

/-- `build_retrievers(index_name, embedding, patient_id, k_course, k_patient,
course_namespace, weights)` from src/rag.py: always constructs the course
retriever over `course_namespace`; `if not patient_id` (Python falsiness:
`None` or the empty string) returns it alone; otherwise also constructs the
patient retriever and combines both in an `EnsembleRetriever` with the given
weights. -/
def build_retrievers (patient_id : Option String) (k_course k_patient : Nat)
    (course_namespace : Option String) (weights : ℚ × ℚ) : Retriever :=
  let course_retriever : SingleRetriever := { ns := course_namespace, k := k_course }
  match patient_id with
  | none => Retriever.single course_retriever
  | some pid =>
      if pid = "" then Retriever.single course_retriever
      else
        Retriever.ensemble course_retriever { ns := some pid, k := k_patient } weights

/-- The search-mode dispatch in app.py (lines 493-513): `current` is the
sidebar's selected patient (the literal string "None" when no patient is
selected). "Patient Only" passes `course_namespace=None`; "Coursebook Only"
passes `patient_id=None`; otherwise ("Both") passes both. `k_course`,
`k_patient` and `weights` are left at their defaults (4, 4, (0.9, 0.1)). -/
def app_retriever (search_mode : String) (current : String) : Retriever :=
  if search_mode = "Patient Only" then
    build_retrievers (if current = "None" then none else some current) 4 4
      none build_retrievers_default_weights
  else if search_mode = "Coursebook Only" then
    build_retrievers none 4 4 (some "Medical_Course") build_retrievers_default_weights
  else
    build_retrievers (if current = "None" then none else some current) 4 4
      (some "Medical_Course") build_retrievers_default_weights

/-!
### Retrieval semantics

A vector store is modelled as a ranked list of stored fragments, each living
in one namespace. A single retriever returns the top `k` fragments of its
namespace. The merge performed by `EnsembleRetriever` is library code not in
the repository; it is modelled from the spec.
-/

/-- A fragment as stored in (and retrieved from) the vector store: text plus
the metadata the code reads back (`source`, `page`), and the namespace the
vector lives in. Retrieved metadata fields are optional because the code
reads them with `meta.get(...)`. -/
structure RDoc where
  page_content : String
  source : Option String
  page : Option Int
  ns : Option String
deriving Repr, DecidableEq

/-- The store: fragments in similarity-ranked order (for every query — the
embedding geometry is irrelevant to the claims). -/
abbrev VectorStore := List RDoc

/-- A single similarity retriever: the top `k` stored fragments of its
namespace. -/
def retrieveSingle (store : VectorStore) (r : SingleRetriever) : List RDoc :=
  ((store.filter (fun d => d.ns == r.ns)).take r.k)

/-- Modelled from the spec: the merge of `EnsembleRetriever` (library code
not in the repository). The spec says the composite retriever "independently
queries both namespaces, then merges the two ranked lists into one ranked
list using the given weight pair; higher-weighted namespace's matches are
favored" and "must never silently drop a namespace". Modelled as weighted
reciprocal-rank fusion over the union of both lists. -/
def ensembleMerge (w1 w2 : ℚ) (l1 l2 : List RDoc) : List RDoc :=
  let score : RDoc → ℚ := fun d =>
    (match l1.findIdx? (fun x => x == d) with
     | some i => w1 / ((i : ℚ) + 1 + 60)
     | none => 0) +
    (match l2.findIdx? (fun x => x == d) with
     | some i => w2 / ((i : ℚ) + 1 + 60)
     | none => 0)
  ((l1 ++ l2).dedup).insertionSort (fun a b => score b ≤ score a)

/-- Running a retriever against the store. -/
def retrieve (store : VectorStore) : Retriever → List RDoc
  | Retriever.single r => retrieveSingle store r
  | Retriever.ensemble c p w =>
      ensembleMerge w.1 w.2 (retrieveSingle store c) (retrieveSingle store p)

/-!
### Answer synthesis (`ask` in src/rag.py) and citations (app.py)
-/

/-- A `sources` entry built by `ask`: the metadata triple read with
`meta.get`, plus the `"chunk"` key that the app's attachment loop may add
afterwards (absent, i.e. `none`, until then). -/
structure SourceEntry where
  source : Option String
  page : Option Int
  ns : Option String
  chunk : Option String
deriving Repr, DecidableEq

/-- A `contexts` entry built by `ask`: the fragment text plus the same
metadata triple. -/
structure Ctx where
  chunk : String
  source : Option String
  page : Option Int
  ns : Option String
deriving Repr, DecidableEq

/-- What `chain.invoke({"input": question})` hands back to `ask`: the answer
text and the retrieved documents under the `"context"` key, in retrieval
order (most relevant first). -/
structure ChainOutput where
  answer : String
  context : List RDoc
deriving Repr, DecidableEq

/-- The value `ask` returns. -/
structure AskResult where
  answer : String
  sources : List SourceEntry
  contexts : List Ctx
deriving Repr, DecidableEq

/-- `ask(chain, question)` from src/rag.py: one `sources` entry and one
`contexts` entry per retrieved document, in order. -/
def ask (out : ChainOutput) : AskResult :=
  { answer := out.answer
    sources := out.context.map (fun d =>
      { source := d.source, page := d.page, ns := d.ns, chunk := none })
    contexts := out.context.map (fun d =>
      { chunk := d.page_content, source := d.source, page := d.page, ns := d.ns }) }

/-- The triple-equality test of the app's chunk-attachment loop
(app.py lines 525-530). -/
def tripleMatches (s : SourceEntry) (c : Ctx) : Bool :=
  c.source == s.source && c.page == s.page && c.ns == s.ns

/-- The chunk-attachment loop after `ask` in app.py (lines 524-532): for each
source entry, scan the contexts in order and attach the chunk text of the
first one whose `(source, page, namespace)` triple matches, then `break`; a
source with no matching context is left without a `"chunk"` key. -/
def attachChunks (sources : List SourceEntry) (ctxs : List Ctx) : List SourceEntry :=
  sources.map (fun s =>
    match ctxs.find? (fun c => tripleMatches s c) with
    | some c => { s with chunk := some c.chunk }
    | none => s)

/-- `icon_for_namespace` from app.py. -/
def icon_for_namespace (ns : String) : String :=
  if ns = "Medical_Course" then "book" else "hospital"

/-- Python's `needle in hay` on strings, over character lists. -/
def hasSub (needle : List Char) : List Char → Bool
  | [] => needle.isEmpty
  | c :: t => List.isPrefixOf needle (c :: t) || hasSub needle t

/-- `pretty_source_label` from app.py: basename with a trailing `.pdf`
(matched case-insensitively, `re.sub(r"\.pdf$", ..., flags=IGNORECASE)`)
removed. -/
def pretty_source_label (src_path : String) : String :=
  let base := basename src_path
  if (base.toList.map Char.toLower).reverse.take 4 = ['f', 'd', 'p', '.'] then
    base.dropRight 4
  else base

/-- One rendered citation line of `build_clickable_citations` (app.py lines
108-138), at the level of the fields interpolated into the HTML: the 1-based
index, the icon, the namespace label, the source label, the page suffix
(empty when the page is missing or not an integer), and the chunk text shown
in the expander (empty when no chunk was attached). -/
structure Citation where
  idx : Nat
  icon : String
  ns_label : String
  src_label : String
  page_str : String
  chunkText : String
deriving Repr, DecidableEq

/-- `build_clickable_citations(sources, turn_idx)` from app.py: one line per
source entry, enumerated from 1. `ns`/`src` default to `""` via `or`;
`int(page)` failing (page missing) yields no page suffix; the namespace label
falls back on inspecting the source path; the source label falls back on the
namespace label. -/
def build_clickable_citations (sources : List SourceEntry) : List Citation :=
  sources.enum.map (fun is =>
    let s := is.2
    let ns := s.ns.getD ""
    let src := s.source.getD ""
    let chunk := s.chunk.getD ""
    let page_int : Option Int := s.page
    let icon := icon_for_namespace (if ns ≠ "" then ns else "Medical_Course")
    let ns_label :=
      if ns ≠ "" then ns
      else if hasSub "medical_course".toList (src.toList.map Char.toLower) then
        "Medical_Course"
      else "Patient"
    let page_str :=
      match page_int with
      | some p => " - page " ++ toString p
      | none => ""
    let src_label := if src ≠ "" then pretty_source_label src else ns_label
    { idx := is.1 + 1, icon := icon, ns_label := ns_label
      src_label := src_label, page_str := page_str, chunkText := chunk })

/-!
## Shared sample data for witnesses
-/

/-- A one-block sample page. -/
def samplePage : Page := [⟨0, 0, "Apply firm pressure to stop bleeding."⟩]

/-- A one-page sample PDF that opens fine. -/
def samplePdf : PdfFile := some [samplePage]

/-!
## Helper lemmas about the window chunker
-/

theorem windowsGo_nil (size step fuel : Nat) : windowsGo size step fuel [] = [] := by
  cases fuel <;> rfl

/-- Removing the first `overlap` characters from every window and
concatenating yields the text with its first `overlap` characters removed
(adequate fuel, `overlap < size`). -/
theorem windowsGo_drop_flatten (size overlap : Nat) (h : overlap < size) :
    ∀ (fuel : Nat) (cs : List Char), cs.length ≤ fuel →
      ((windowsGo size (size - overlap) fuel cs).map (List.drop overlap)).flatten =
        cs.drop overlap := by
  intro fuel
  induction fuel with
  | zero =>
      intro cs hcs
      have hnil : cs = [] := List.eq_nil_of_length_eq_zero (Nat.le_zero.mp hcs)
      subst hnil
      simp [windowsGo_nil]
  | succ fuel ih =>
      intro cs hcs
      cases cs with
      | nil => simp [windowsGo_nil]
      | cons c t =>
          rw [windowsGo]
          · have hstep : max 1 (size - overlap) = size - overlap := by omega
            rw [hstep]
            by_cases hle : (c :: t).length ≤ size
            · rw [if_pos hle]
              simp
            · rw [if_neg hle]
              have hlen : ((c :: t).drop (size - overlap)).length ≤ fuel := by
                simp only [List.length_drop, List.length_cons] at hcs ⊢
                omega
              rw [List.map_cons, List.flatten_cons, ih _ hlen]
              rw [List.drop_drop, List.drop_take]
              have h1 : size - overlap + overlap = size := by omega
              have h2 : overlap + (size - overlap) = size := by omega
              rw [h1]
              calc List.take (size - overlap) (List.drop overlap (c :: t)) ++
                    List.drop size (c :: t)
                  = List.take (size - overlap) (List.drop overlap (c :: t)) ++
                    List.drop (size - overlap) (List.drop overlap (c :: t)) := by
                    rw [List.drop_drop, h2]
                _ = List.drop overlap (c :: t) := List.take_append_drop _ _
          · simp

/-- Reassembling the window sequence of `cs` (adequate fuel,
`overlap < size`) restores `cs` exactly. -/
theorem reassemble_windowsGo (size overlap : Nat) (h : overlap < size)
    (fuel : Nat) (cs : List Char) (hcs : cs.length ≤ fuel) :
    reassemble overlap (windowsGo size (size - overlap) fuel cs) = cs := by
  cases fuel with
  | zero =>
      have hnil : cs = [] := List.eq_nil_of_length_eq_zero (Nat.le_zero.mp hcs)
      subst hnil
      simp [windowsGo_nil, reassemble]
  | succ fuel =>
      cases cs with
      | nil => simp [windowsGo_nil, reassemble]
      | cons c t =>
          rw [windowsGo]
          · have hstep : max 1 (size - overlap) = size - overlap := by omega
            rw [hstep]
            by_cases hle : (c :: t).length ≤ size
            · rw [if_pos hle]
              simp [reassemble]
            · rw [if_neg hle]
              have hlen : ((c :: t).drop (size - overlap)).length ≤ fuel := by
                simp only [List.length_drop, List.length_cons] at hcs ⊢
                omega
              show List.take size (c :: t) ++
                  ((windowsGo size (size - overlap) fuel
                    ((c :: t).drop (size - overlap))).map (List.drop overlap)).flatten =
                  c :: t
              rw [windowsGo_drop_flatten size overlap h fuel _ hlen]
              rw [List.drop_drop]
              have h1 : size - overlap + overlap = size := by omega
              rw [h1, List.take_append_drop]
          · simp

/-- `windows`-level reconstruction: for `overlap < size`, reassembling the
windows of any character sequence restores it exactly. -/
theorem reassemble_windows (size overlap : Nat) (h : overlap < size)
    (cs : List Char) :
    reassemble overlap (windows size (size - overlap) cs) = cs :=
  reassemble_windowsGo size overlap h cs.length cs (Nat.le_refl _)

/-!
## C7 — chunking is page-faithful
-/

/-- C7: for every chunking configuration with `overlap < size`, every chunk
produced by `split_docs` carries the page number (and source) of exactly one
input document — windows never cross page boundaries — and, per page,
concatenating the page's chunks after removing the duplicated overlap spans
reconstructs the page's extracted text exactly. -/
theorem split_docs_page_faithful (docs : List Doc) (size overlap : Nat)
    (chunks : List Doc) (h : overlap < size)
    (hs : split_docs docs size overlap = Except.ok chunks) :
    (∀ c ∈ chunks, ∃ d ∈ docs, c.page = d.page ∧ c.source = d.source) ∧
    (∀ d ∈ docs,
      reassemble overlap
        ((chunkDoc size overlap d).map (fun c => c.page_content.toList)) =
        d.page_content.toList) := by
  have hchunks : chunks = docs.flatMap (chunkDoc size overlap) := by
    unfold split_docs at hs
    rw [if_neg (by omega : ¬ size ≤ overlap)] at hs
    exact (Except.ok.inj hs).symm
  constructor
  · intro c hc
    rw [hchunks, List.mem_flatMap] at hc
    obtain ⟨d, hd, hcd⟩ := hc
    unfold chunkDoc at hcd
    rw [List.mem_map] at hcd
    obtain ⟨w, _, rfl⟩ := hcd
    exact ⟨d, hd, rfl, rfl⟩
  · intro d _
    unfold chunkDoc
    rw [List.map_map]
    have hid : ((fun c : Doc => c.page_content.toList) ∘
        (fun w => { d with page_content := String.mk w })) = id := rfl
    rw [hid, List.map_id]
    exact reassemble_windows size overlap h _

/-- Witness for C7 at a concrete page: `"abcdefgh"` split with
`size = 5, overlap = 2` gives chunks `"abcde"`, `"defgh"` on the same page,
and reassembly restores the page text. -/
theorem split_docs_page_faithful_witness :
    (∀ c ∈ [(⟨"abcde", "s.pdf", 1⟩ : Doc), ⟨"defgh", "s.pdf", 1⟩],
        ∃ d ∈ [(⟨"abcdefgh", "s.pdf", 1⟩ : Doc)],
          c.page = d.page ∧ c.source = d.source) ∧
    (∀ d ∈ [(⟨"abcdefgh", "s.pdf", 1⟩ : Doc)],
        reassemble 2 ((chunkDoc 5 2 d).map (fun c => c.page_content.toList)) =
          d.page_content.toList) :=
  split_docs_page_faithful [⟨"abcdefgh", "s.pdf", 1⟩] 5 2
    [⟨"abcde", "s.pdf", 1⟩, ⟨"defgh", "s.pdf", 1⟩] (by decide) (by rfl)

/-!
## Helper lemmas about the batch-upload loop
-/

/-- The chunks kept by the batch loop from batch `i` on: every batch whose
upload succeeds contributes its chunks, failed later batches contribute
nothing (and nothing is rolled back). -/
def keptFrom (ok : Nat → Bool) : Nat → List (List Doc) → List Doc
  | _, [] => []
  | i, b :: rest => (if ok i then b else []) ++ keptFrom ok (i + 1) rest

/-- From batch 1 on, the loop never aborts: every remaining batch is
attempted, the store handle never changes, and exactly the successful
batches are appended. -/
theorem uploadGo_pos (ok : Nat → Bool) :
    ∀ (bs : List (List Doc)) (i : Nat) (acc : UploadOutcome), 1 ≤ i →
      uploadGo ok i bs acc =
        { store := acc.store
          written := acc.written ++ keptFrom ok i bs
          attempted := acc.attempted ++ List.range' i bs.length } := by
  intro bs
  induction bs with
  | nil =>
      intro i acc hi
      simp [uploadGo, keptFrom, List.range']
  | cons b rest ih =>
      intro i acc hi
      rw [uploadGo]
      have hne : ¬ i = 0 := by omega
      by_cases hok : ok i
      · simp only [hok, if_true, if_neg hne]
        rw [ih (i + 1) _ (by omega)]
        simp [keptFrom, hok, List.range'_succ, List.length_cons]
      · simp only [hok, Bool.false_eq_true, if_false, if_neg hne]
        rw [ih (i + 1) _ (by omega)]
        simp [keptFrom, hok, List.range'_succ, List.length_cons]

/-- The outcome of `upload_in_batches` on a non-empty chunk list: a failing
first batch aborts with nothing written and only batch 0 attempted; a
succeeding first batch yields a store, all batches attempted, and exactly
the successful batches written. -/
theorem upload_in_batches_spec (ok : Nat → Bool) (chunks : List Doc)
    (hne : chunks ≠ []) :
    (ok 0 = false →
      upload_in_batches ok chunks 100 =
        { store := none, written := [], attempted := [0] }) ∧
    (ok 0 = true →
      upload_in_batches ok chunks 100 =
        { store := some ()
          written := keptFrom ok 0 (toBatches 100 chunks)
          attempted := List.range (toBatches 100 chunks).length }) := by
  obtain ⟨b, rest, hbr⟩ : ∃ b rest, toBatches 100 chunks = b :: rest := by
    cases chunks with
    | nil => exact absurd rfl hne
    | cons c t => exact ⟨_, _, rfl⟩
  unfold upload_in_batches
  rw [hbr]
  constructor
  · intro h0
    rw [uploadGo]
    simp [h0]
  · intro h0
    rw [uploadGo]
    simp only [h0, if_true, if_pos rfl]
    rw [uploadGo_pos ok rest 1 _ (Nat.le_refl 1)]
    simp [keptFrom, h0, List.range_eq_range', List.range'_succ, List.length_cons]

/-- Marking makes (and keeps) the name a ledger member. -/
theorem mark_book_ingested_mem (a : String) (l : Ledger) :
    a ∈ (mark_book_ingested a l).medical_course := by
  unfold mark_book_ingested
  by_cases hmem : a ∈ l.medical_course
  · rw [if_pos hmem]
    exact hmem
  · rw [if_neg hmem]
    simp

/-!
## C6 — batch-failure policy of reference ingestion
-/

/-- C6: the post-extraction part of `process_coursebook_pdf` on a fresh
filename and non-empty chunk list. If the first batch upload fails, the
ingestion aborts: nothing is written, no later batch is attempted, and the
ledger is unchanged (the filename is not marked). If the first batch
succeeds, every batch is attempted even when later ones fail, exactly the
successful batches' chunks are written (failed ones are skipped, nothing is
rolled back), and the filename ends up in the ledger exactly once. -/
theorem coursebook_batch_policy (ledger : Ledger) (filename : String)
    (chunks : List Doc) (ok : Nat → Bool)
    (hnotin : filename ∉ ledger.medical_course) (hne : chunks ≠ []) :
    (ok 0 = false →
      coursebook_upload_step ledger filename chunks ok =
        { ledger := ledger, outcome := IngestOutcome.aborted, readFile := true
          written := [], attempted := [0] }) ∧
    (ok 0 = true →
      coursebook_upload_step ledger filename chunks ok =
        { ledger := { medical_course := ledger.medical_course ++ [filename] }
          outcome := IngestOutcome.uploaded chunks.length, readFile := true
          written := keptFrom ok 0 (toBatches 100 chunks)
          attempted := List.range (toBatches 100 chunks).length } ∧
      ((coursebook_upload_step ledger filename chunks ok).ledger).medical_course.count
          filename = 1) := by
  obtain ⟨habort, hsucc⟩ := upload_in_batches_spec ok chunks hne
  constructor
  · intro h0
    unfold coursebook_upload_step
    rw [habort h0]
  · intro h0
    have hstep : coursebook_upload_step ledger filename chunks ok =
        { ledger := { medical_course := ledger.medical_course ++ [filename] }
          outcome := IngestOutcome.uploaded chunks.length, readFile := true
          written := keptFrom ok 0 (toBatches 100 chunks)
          attempted := List.range (toBatches 100 chunks).length } := by
      unfold coursebook_upload_step
      rw [hsucc h0]
      unfold mark_book_ingested
      rw [if_neg hnotin]
    refine ⟨hstep, ?_⟩
    rw [hstep]
    simp only [List.count_append]
    rw [List.count_eq_zero.mpr hnotin]
    simp [List.count_singleton]

/-- Witness for C6: a fresh ledger, one chunk, all uploads succeeding. -/
theorem coursebook_batch_policy_witness :
    ((fun _ : Nat => true) 0 = false →
      coursebook_upload_step ⟨[]⟩ "book.pdf"
          [⟨"Apply firm pressure to stop bleeding.", "book.pdf", 1⟩] (fun _ => true) =
        { ledger := ⟨[]⟩, outcome := IngestOutcome.aborted, readFile := true
          written := [], attempted := [0] }) ∧
    ((fun _ : Nat => true) 0 = true →
      coursebook_upload_step ⟨[]⟩ "book.pdf"
          [⟨"Apply firm pressure to stop bleeding.", "book.pdf", 1⟩] (fun _ => true) =
        { ledger := ⟨[] ++ ["book.pdf"]⟩
          outcome := IngestOutcome.uploaded 1, readFile := true
          written := keptFrom (fun _ => true) 0
            (toBatches 100 [⟨"Apply firm pressure to stop bleeding.", "book.pdf", 1⟩])
          attempted := List.range (toBatches 100
            [(⟨"Apply firm pressure to stop bleeding.", "book.pdf", 1⟩ : Doc)]).length } ∧
      ((coursebook_upload_step ⟨[]⟩ "book.pdf"
          [⟨"Apply firm pressure to stop bleeding.", "book.pdf", 1⟩]
          (fun _ => true)).ledger).medical_course.count "book.pdf" = 1) :=
  coursebook_batch_policy ⟨[]⟩ "book.pdf"
    [⟨"Apply firm pressure to stop bleeding.", "book.pdf", 1⟩] (fun _ => true)
    (by decide) (by decide)

/-!
## C5 — reference ingestion is idempotent per filename
-/

/-- C5: once a coursebook filename has been ingested (outcome `uploaded`),
any further reference ingestion of the same path — with any PDF content
behind it (even an unopenable file, showing the file is not read) and any
upload behaviour — performs no extraction, no chunking and no vector-store
writes: it returns the skipped outcome with `readFile = false`, `written = []`
and the ledger unchanged. -/
theorem reference_ingest_idempotent (ledger : Ledger) (pdf pdf2 : PdfFile)
    (path : String) (ok ok2 : Nat → Bool) (r : CoursebookResult) (n : Nat)
    (h : process_coursebook_pdf ledger pdf path ok = Except.ok r)
    (hup : r.outcome = IngestOutcome.uploaded n) :
    process_coursebook_pdf r.ledger pdf2 path ok2 =
      Except.ok { ledger := r.ledger, outcome := IngestOutcome.skipped
                  readFile := false, written := [], attempted := [] } := by
  have hmem : basename path ∈ r.ledger.medical_course := by
    unfold process_coursebook_pdf at h
    by_cases hing : book_already_ingested (basename path) ledger = true
    · rw [if_pos hing] at h
      have hr := Except.ok.inj h
      rw [← hr] at hup
      simp at hup
    · rw [if_neg hing] at h
      cases hload : load_pdf_with_fitz pdf path with
      | error e => rw [hload] at h; cases h
      | ok docs =>
          rw [hload] at h
          dsimp only at h
          cases hsplit : split_docs docs 1000 200 with
          | error e => rw [hsplit] at h; cases h
          | ok chunks =>
              rw [hsplit] at h
              dsimp only at h
              have hr := Except.ok.inj h
              unfold coursebook_upload_step at hr
              dsimp only at hr
              cases hst : (upload_in_batches ok chunks 100).store with
              | none =>
                  rw [hst] at hr
                  rw [← hr] at hup
                  simp at hup
              | some u =>
                  rw [hst] at hr
                  rw [← hr]
                  exact mark_book_ingested_mem _ _
  unfold process_coursebook_pdf
  rw [if_pos (by simpa [book_already_ingested] using hmem)]

/-- Witness for C5: after successfully ingesting `book.pdf`, a second
ingestion of the same path skips — even though the second PDF handle is
`none` (an unopenable file) and its uploads would all fail. -/
theorem reference_ingest_idempotent_witness :
    process_coursebook_pdf ⟨["book.pdf"]⟩ none "data/medical_course/book.pdf"
        (fun _ => false) =
      Except.ok { ledger := ⟨["book.pdf"]⟩, outcome := IngestOutcome.skipped
                  readFile := false, written := [], attempted := [] } :=
  reference_ingest_idempotent ⟨[]⟩ samplePdf none "data/medical_course/book.pdf"
    (fun _ => true) (fun _ => false)
    { ledger := ⟨["book.pdf"]⟩, outcome := IngestOutcome.uploaded 1, readFile := true
      written := [⟨"Apply firm pressure to stop bleeding.",
                   "data/medical_course/book.pdf", 1⟩]
      attempted := [0] } 1 (by rfl) (by rfl)

/-!
## C1 — 'Patient Only' mode does not return a single patient retriever
-/

/-- C1 counterexample: in 'Patient Only' mode with patient `Patient_P0004`
selected, the app's retriever is not the single patient-scoped similarity
retriever the claim describes — it is an ensemble whose first member is a
course retriever scoped to namespace `None` — and against a store holding a
default-namespace fragment and a patient fragment, retrieval returns the
default-namespace fragment (first, with weight 0.9), so the results are not
tagged exclusively with the patient namespace. -/
theorem patient_only_single_retriever_cex :
    app_retriever "Patient Only" "Patient_P0004" ≠
      Retriever.single ⟨some "Patient_P0004", 4⟩ ∧
    app_retriever "Patient Only" "Patient_P0004" =
      Retriever.ensemble ⟨none, 4⟩ ⟨some "Patient_P0004", 4⟩
        build_retrievers_default_weights ∧
    retrieve
        [⟨"General note", some "data/medical_course/book.pdf", some 3, none⟩,
         ⟨"Patient note", some "data/patient_data/Patient_P0004.pdf", some 1,
          some "Patient_P0004"⟩]
        (app_retriever "Patient Only" "Patient_P0004") =
      [⟨"General note", some "data/medical_course/book.pdf", some 3, none⟩,
       ⟨"Patient note", some "data/patient_data/Patient_P0004.pdf", some 1,
        some "Patient_P0004"⟩] ∧
    (⟨"General note", some "data/medical_course/book.pdf", some 3, none⟩ : RDoc).ns ≠
      some "Patient_P0004" := by
  refine ⟨?_, rfl, ?_, by simp⟩
  · simp [app_retriever, build_retrievers]
  · simp [retrieve, app_retriever, build_retrievers, ensembleMerge, retrieveSingle,
      List.insertionSort, List.orderedInsert, List.dedup, build_retrievers_default_weights]
    norm_num

/-- C1 (amended): in 'Patient Only' mode with a patient selected (the
selection is neither the literal "None" nor empty), `build_retrievers` is
called with `course_namespace=None` and the patient id, and returns an
`EnsembleRetriever` of a course retriever scoped to namespace `None` (limit
4) and the patient retriever (limit 4) under the default weights (0.9, 0.1) —
not a single patient-scoped retriever, so results are not guaranteed to come
from the patient namespace only. -/
theorem patient_only_returns_ensemble (current : String)
    (h1 : current ≠ "None") (h2 : current ≠ "") :
    app_retriever "Patient Only" current =
      Retriever.ensemble ⟨none, 4⟩ ⟨some current, 4⟩
        build_retrievers_default_weights := by
  simp [app_retriever, build_retrievers, h1, h2]

/-- Witness for C1 (amended) at patient `Patient_P0004`. -/
theorem patient_only_returns_ensemble_witness :
    app_retriever "Patient Only" "Patient_P0004" =
      Retriever.ensemble ⟨none, 4⟩ ⟨some "Patient_P0004", 4⟩
        build_retrievers_default_weights :=
  patient_only_returns_ensemble "Patient_P0004" (by decide) (by decide)

/-!
## C2 — the default ensemble weights
-/

/-- C2 counterexample: the default `weights` of `build_retrievers` is
`(0.9, 0.1)`, not the claimed `(0.6, 0.4)`; in 'Both' mode with a patient
selected the app builds the ensemble with exactly that default pair. -/
theorem default_weights_cex :
    build_retrievers_default_weights ≠ ((6 : ℚ) / 10, (4 : ℚ) / 10) ∧
    app_retriever "Both" "Patient_P0004" =
      Retriever.ensemble ⟨some "Medical_Course", 4⟩ ⟨some "Patient_P0004", 4⟩
        ((9 : ℚ) / 10, (1 : ℚ) / 10) := by
  constructor
  · simp [build_retrievers_default_weights]
    norm_num
  · rfl

/-- C2 (amended): in 'search everywhere' ("Both") mode with a patient
selected and no caller-supplied weights, the composite retriever merges the
reference and patient ranked lists with the default weight pair 0.9 for the
reference corpus and 0.1 for the patient corpus. -/
theorem both_mode_default_weights (current : String)
    (h1 : current ≠ "None") (h2 : current ≠ "") :
    app_retriever "Both" current =
      Retriever.ensemble ⟨some "Medical_Course", 4⟩ ⟨some current, 4⟩
        ((9 : ℚ) / 10, (1 : ℚ) / 10) := by
  simp [app_retriever, build_retrievers, build_retrievers_default_weights, h1, h2]

/-- Witness for C2 (amended) at patient `Patient_P0004`. -/
theorem both_mode_default_weights_witness :
    app_retriever "Both" "Patient_P0004" =
      Retriever.ensemble ⟨some "Medical_Course", 4⟩ ⟨some "Patient_P0004", 4⟩
        ((9 : ℚ) / 10, (1 : ℚ) / 10) :=
  both_mode_default_weights "Patient_P0004" (by decide) (by decide)

/-!
## C3 — extraction of a PDF with no usable text
-/

/-- C3 counterexample: a PDF that opens fine but whose only page holds only a
whitespace block extracts successfully to the empty document sequence —
extraction does not fail on zero usable pages. -/
theorem extraction_empty_success_cex :
    load_pdf_with_fitz (some [[⟨0, 0, " "⟩]]) "empty.pdf" = Except.ok [] ∧
    (load_pdf_with_fitz (some [[⟨0, 0, " "⟩]]) "empty.pdf").isOk = true :=
  ⟨rfl, rfl⟩

/-- C3 (amended): extraction fails exactly when the file cannot be opened;
a PDF all of whose pages yield no usable text extracts successfully to the
empty sequence. The empty sequence is rejected (with an error) only by the
patient ingestion path, which checks it after extraction. -/
theorem extraction_error_policy (pages : List Page) (path : String)
    (hall : ∀ p ∈ pages, pageText p = "") :
    load_pdf_with_fitz (some pages) path = Except.ok [] ∧
    (∀ path2 : String, load_pdf_with_fitz none path2 =
        Except.error ("cannot open file: " ++ path2)) ∧
    (∀ (deleteOk uploadOk : Bool) (pid : String),
      process_patient_pdf ⟨true, some pages, deleteOk, uploadOk⟩ path pid 1000 200 =
        Except.error ("No extractable text in: " ++ path)) := by
  have hload : load_pdf_with_fitz (some pages) path = Except.ok [] := by
    unfold load_pdf_with_fitz
    dsimp only
    congr 1
    rw [List.filterMap_eq_nil_iff]
    intro ip hip
    have hp : ip.2 ∈ pages := by
      have hg := List.mem_enum_iff_getElem?.mp hip
      exact List.getElem?_mem hg
    simp [hall ip.2 hp]
  refine ⟨hload, fun path2 => rfl, ?_⟩
  intro dOk uOk pid
  unfold process_patient_pdf
  rw [if_neg (by simp)]
  rw [show (⟨true, some pages, dOk, uOk⟩ : PatientEnv).pdf = some pages from rfl, hload]
  rfl

/-- Witness for C3 (amended): one whitespace-only page. -/
theorem extraction_error_policy_witness :
    load_pdf_with_fitz (some [[⟨0, 0, " "⟩]]) "scan.pdf" = Except.ok [] ∧
    (∀ path2 : String, load_pdf_with_fitz none path2 =
        Except.error ("cannot open file: " ++ path2)) ∧
    (∀ (deleteOk uploadOk : Bool) (pid : String),
      process_patient_pdf ⟨true, some [[⟨0, 0, " "⟩]], deleteOk, uploadOk⟩
          "scan.pdf" pid 1000 200 =
        Except.error ("No extractable text in: " ++ "scan.pdf")) :=
  extraction_error_policy [[⟨0, 0, " "⟩]] "scan.pdf" (by decide)

/-!
## C4 — the chunking precondition is not checked before I/O
-/

/-- C4 counterexample: with `overlap = size = 100` (violating
`overlap < size`) and a PDF whose only page is whitespace, patient ingestion
raises the extraction error, not a configuration error: the PDF was opened
and its text extracted before the chunking configuration was ever looked at,
so the violation is not reported before I/O. -/
theorem chunk_precondition_not_before_io_cex :
    process_patient_pdf ⟨true, some [[⟨0, 0, " "⟩]], true, true⟩ "p.pdf" "P1" 100 100 =
      Except.error ("No extractable text in: " ++ "p.pdf") ∧
    process_patient_pdf ⟨true, some [[⟨0, 0, " "⟩]], true, true⟩ "p.pdf" "P1" 100 100 ≠
      Except.error
        "configuration error: chunk overlap must be smaller than chunk size" := by
  refine ⟨rfl, fun hcontra => ?_⟩
  have heq : ("No extractable text in: " ++ "p.pdf") =
      "configuration error: chunk overlap must be smaller than chunk size" :=
    Except.error.inj
      ((rfl :
        process_patient_pdf ⟨true, some [[⟨0, 0, " "⟩]], true, true⟩
            "p.pdf" "P1" 100 100 =
          Except.error ("No extractable text in: " ++ "p.pdf")).symm.trans hcontra)
  exact absurd heq (by decide)

/-- C4 (amended): `overlap < size` is a precondition of chunking and
violating it is reported as a configuration error — but only when the
splitter runs, which is after the PDF has been opened and its text
extracted: under a violating configuration, a PDF with usable text yields
the configuration error, while a PDF with no usable text yields the
extraction error instead (extraction I/O always happens first). -/
theorem chunk_precondition_after_io (env : PatientEnv) (path pid : String)
    (size overlap : Nat) (hov : size ≤ overlap) (hex : env.fileExists = true)
    (docs : List Doc) (hload : load_pdf_with_fitz env.pdf path = Except.ok docs) :
    (docs ≠ [] → process_patient_pdf env path pid size overlap =
        Except.error
          "configuration error: chunk overlap must be smaller than chunk size") ∧
    (docs = [] → process_patient_pdf env path pid size overlap =
        Except.error ("No extractable text in: " ++ path)) := by
  unfold process_patient_pdf
  rw [hex]
  rw [if_neg (by simp)]
  rw [hload]
  constructor
  · intro hne
    dsimp only
    rw [if_neg (by simpa [List.isEmpty_iff] using hne)]
    unfold split_docs
    rw [if_pos hov]
  · intro hnil
    subst hnil
    rfl

/-- Witness for C4 (amended): a readable one-block page, `size = overlap
= 100`. -/
theorem chunk_precondition_after_io_witness :
    (([(⟨"Apply firm pressure to stop bleeding.",
        "data/patient_data/p.pdf", 1⟩ : Doc)] ≠ ([] : List Doc)) →
      process_patient_pdf ⟨true, samplePdf, true, true⟩
          "data/patient_data/p.pdf" "p" 100 100 =
        Except.error
          "configuration error: chunk overlap must be smaller than chunk size") ∧
    (([(⟨"Apply firm pressure to stop bleeding.",
        "data/patient_data/p.pdf", 1⟩ : Doc)] = ([] : List Doc)) →
      process_patient_pdf ⟨true, samplePdf, true, true⟩
          "data/patient_data/p.pdf" "p" 100 100 =
        Except.error ("No extractable text in: " ++ "data/patient_data/p.pdf")) :=
  chunk_precondition_after_io ⟨true, samplePdf, true, true⟩
    "data/patient_data/p.pdf" "p" 100 100 (by decide) (by rfl)
    [⟨"Apply firm pressure to stop bleeding.", "data/patient_data/p.pdf", 1⟩]
    (by rfl)

/-!
## C9 — the patient upload failure does not propagate
-/

/-- C9 counterexample: when the single patient-namespace write fails during
patient ingestion, `process_patient_pdf` does not raise — it catches the
failure, logs it, and returns `None` to the caller. -/
theorem patient_upload_failure_swallowed_cex :
    process_patient_pdf ⟨true, samplePdf, true, false⟩
        "data/patient_data/p.pdf" "p" 1000 200 = Except.ok none ∧
    (process_patient_pdf ⟨true, samplePdf, true, false⟩
        "data/patient_data/p.pdf" "p" 1000 200).isOk = true :=
  ⟨rfl, rfl⟩

/-- C9 (amended): the patient-namespace write failure is a third locally
recovered case: it is caught and surfaced only as a `None` return value, not
a propagating error; a namespace-delete failure never affects the result
(the outcome is independent of `deleteOk`); a missing file does propagate;
and the model-call boundary's bounded retry default is `max_retries = 2`. -/
theorem patient_error_policy (env : PatientEnv) (path pid : String)
    (docs : List Doc) (hex : env.fileExists = true)
    (hload : load_pdf_with_fitz env.pdf path = Except.ok docs)
    (hne : docs ≠ []) :
    (env.uploadOk = false →
      process_patient_pdf env path pid 1000 200 = Except.ok none) ∧
    (env.uploadOk = true →
      process_patient_pdf env path pid 1000 200 = Except.ok (some ())) ∧
    (∀ b : Bool, process_patient_pdf { env with deleteOk := b } path pid 1000 200 =
      process_patient_pdf env path pid 1000 200) ∧
    (∀ env2 : PatientEnv, env2.fileExists = false →
      process_patient_pdf env2 path pid 1000 200 =
        Except.error ("PDF not found: " ++ path)) ∧
    get_chat_model_defaults.max_retries = 2 := by
  have hbody : ∀ u : Bool,
      process_patient_pdf { env with uploadOk := u } path pid 1000 200 =
        (if u then Except.ok (some ()) else Except.ok none) := by
    intro u
    unfold process_patient_pdf
    rw [show ({ env with uploadOk := u } : PatientEnv).fileExists = true from hex]
    rw [if_neg (by simp)]
    rw [show ({ env with uploadOk := u } : PatientEnv).pdf = env.pdf from rfl, hload]
    dsimp only
    rw [if_neg (by simpa [List.isEmpty_iff] using hne)]
    unfold split_docs
    rw [if_neg (by omega)]
  have henv : ∀ u : Bool, env.uploadOk = u →
      process_patient_pdf env path pid 1000 200 =
        (if u then Except.ok (some ()) else Except.ok none) := by
    intro u hu
    have : ({ env with uploadOk := u } : PatientEnv) = env := by
      cases env
      simp_all
    rw [← this]
    exact hbody u
  refine ⟨fun h0 => by simpa using henv false h0,
          fun h1 => by simpa using henv true h1,
          fun b => rfl, ?_, rfl⟩
  intro env2 hfe
  unfold process_patient_pdf
  rw [hfe]
  rw [if_pos rfl]

/-- Witness for C9 (amended): a readable patient PDF whose upload fails. -/
theorem patient_error_policy_witness :
    ((⟨true, samplePdf, true, false⟩ : PatientEnv).uploadOk = false →
      process_patient_pdf ⟨true, samplePdf, true, false⟩
          "data/patient_data/p.pdf" "p" 1000 200 = Except.ok none) ∧
    ((⟨true, samplePdf, true, false⟩ : PatientEnv).uploadOk = true →
      process_patient_pdf ⟨true, samplePdf, true, false⟩
          "data/patient_data/p.pdf" "p" 1000 200 = Except.ok (some ())) ∧
    (∀ b : Bool, process_patient_pdf
        { (⟨true, samplePdf, true, false⟩ : PatientEnv) with deleteOk := b }
        "data/patient_data/p.pdf" "p" 1000 200 =
      process_patient_pdf ⟨true, samplePdf, true, false⟩
        "data/patient_data/p.pdf" "p" 1000 200) ∧
    (∀ env2 : PatientEnv, env2.fileExists = false →
      process_patient_pdf env2 "data/patient_data/p.pdf" "p" 1000 200 =
        Except.error ("PDF not found: " ++ "data/patient_data/p.pdf")) ∧
    get_chat_model_defaults.max_retries = 2 :=
  patient_error_policy ⟨true, samplePdf, true, false⟩ "data/patient_data/p.pdf" "p"
    [⟨"Apply firm pressure to stop bleeding.", "data/patient_data/p.pdf", 1⟩]
    (by rfl) (by rfl) (by decide)

/-!
## C8 — citations are an exact-field mapping per retrieved fragment
-/

/-- The `(source, page, namespace)` exact-field match between two retrieved
fragments, as the spec describes the citation text lookup. -/
def sameTriple (d2 d : RDoc) : Bool :=
  d2.source == d.source && d2.page == d.page && d2.ns == d.ns

/-- The citation the spec predicts for the `i`-th retrieved fragment `d`: all
fields derived from `d`'s own stored metadata, the page suffix empty when
the page is missing (no failure), and the shown fragment text taken from the
first retrieved fragment whose metadata triple equals `d`'s (an exact-field
match, not a similarity match). -/
def specCitation (context : List RDoc) (i : Nat) (d : RDoc) : Citation :=
  let ns := d.ns.getD ""
  let src := d.source.getD ""
  let ns_label :=
    if ns ≠ "" then ns
    else if hasSub "medical_course".toList (src.toList.map Char.toLower) then
      "Medical_Course"
    else "Patient"
  { idx := i + 1
    icon := icon_for_namespace (if ns ≠ "" then ns else "Medical_Course")
    ns_label := ns_label
    src_label := if src ≠ "" then pretty_source_label src else ns_label
    page_str :=
      match d.page with
      | some p => " - page " ++ toString p
      | none => ""
    chunkText :=
      match context.find? (fun d2 => sameTriple d2 d) with
      | some d2 => d2.page_content
      | none => "" }

/-- `find?` only depends on the predicate pointwise. -/
theorem find?_pred_congr {α : Type} (p q : α → Bool) (l : List α)
    (h : ∀ a, p a = q a) : l.find? p = l.find? q := by
  induction l with
  | nil => rfl
  | cons a t ih => simp only [List.find?, h a, ih]

/-- The composition of `ask` and the app's attachment loop, per fragment:
each source entry keeps the fragment's own metadata and gains the text of
the first fragment with the same metadata triple. -/
theorem attach_ask_chunks (l : List RDoc) (a : String) :
    attachChunks (ask ⟨a, l⟩).sources (ask ⟨a, l⟩).contexts =
      l.map (fun d =>
        { source := d.source, page := d.page, ns := d.ns
          chunk := (l.find? (fun d2 => sameTriple d2 d)).map
            (fun d2 => d2.page_content) }) := by
  dsimp only [ask]
  unfold attachChunks
  rw [List.map_map]
  apply List.map_congr_left
  intro d _
  dsimp only [Function.comp]
  rw [List.find?_map]
  rw [find?_pred_congr
    ((fun c => tripleMatches
        { source := d.source, page := d.page, ns := d.ns, chunk := none } c) ∘
      (fun x : RDoc =>
        ({ chunk := x.page_content, source := x.source, page := x.page
           ns := x.ns } : Ctx)))
    (fun d2 => sameTriple d2 d) l (fun _ => rfl)]
  cases hfind : l.find? (fun d2 => sameTriple d2 d) <;> rfl

/-- C8: for every answered question, the citation list built from `ask`'s
output (after the app's chunk-attachment loop) has exactly one entry per
retrieved fragment, in retrieval order: entry `i` is `specCitation` of the
`i`-th fragment — its fields are an exact-field mapping of that fragment's
stored `(source_path, page_number, namespace)` metadata, a missing page
yields an empty page suffix instead of a failure, and the displayed text is
the content of the first retrieved fragment bearing the same metadata
triple. -/
theorem ask_citations_exact (out : ChainOutput) :
    build_clickable_citations
        (attachChunks (ask out).sources (ask out).contexts) =
      out.context.enum.map (fun id => specCitation out.context id.1 id.2) ∧
    (build_clickable_citations
        (attachChunks (ask out).sources (ask out).contexts)).length =
      out.context.length := by
  obtain ⟨a, l⟩ := out
  have hmain : build_clickable_citations
      (attachChunks (ask ⟨a, l⟩).sources (ask ⟨a, l⟩).contexts) =
      l.enum.map (fun id => specCitation l id.1 id.2) := by
    rw [attach_ask_chunks l a]
    unfold build_clickable_citations
    rw [List.enum_map, List.map_map]
    apply List.map_congr_left
    intro id _
    obtain ⟨i, d⟩ := id
    dsimp only [Function.comp, Prod.map, specCitation, id_eq]
    cases hfind : l.find? (fun d2 => sameTriple d2 d) <;> rfl
  exact ⟨hmain, by rw [hmain, List.length_map, List.enum_length]⟩

/-!
## C10 — chunk attachment picks the first triple-matching context
-/

/-- `find?` returns the element at the first index satisfying the
predicate. -/
theorem find?_eq_some_of_first {α : Type} (p : α → Bool) :
    ∀ (l : List α) (j : Nat) (hj : j < l.length),
      p (l.get ⟨j, hj⟩) = true →
      (∀ (j2 : Nat) (hj2 : j2 < l.length), j2 < j → p (l.get ⟨j2, hj2⟩) = false) →
      l.find? p = some (l.get ⟨j, hj⟩)
  | [], j, hj, _, _ => absurd hj (by simp)
  | a :: t, 0, _, hp, _ => by
      simp only [List.get, List.find?]
      simp only [List.get] at hp
      rw [hp]
  | a :: t, j + 1, hj, hp, hfirst => by
      have ha : p a = false := by
        have := hfirst 0 (by simp) (Nat.succ_pos j)
        simpa using this
      simp only [List.find?]
      rw [ha]
      simp only [List.get_cons_succ] at hp ⊢
      exact find?_eq_some_of_first p t j (by simpa using hj) hp
        (fun j2 hj2 hlt => by
          have := hfirst (j2 + 1) (by simpa using hj2) (by omega)
          simpa using this)

/-- C10: the app's chunk-attachment loop maps each source entry to the chunk
text of the *first* context whose `(source, page, namespace)` triple equals
its own — so when several retrieved fragments share a triple, all their
citations display the first such fragment's text — and a source entry with
no matching context is left without any fragment text (its `chunk` stays as
it was, i.e. absent). -/
theorem attach_first_match (sources : List SourceEntry) (ctxs : List Ctx)
    (i : Nat) (hi : i < sources.length) :
    (∀ (j : Nat) (hj : j < ctxs.length),
      tripleMatches (sources.get ⟨i, hi⟩) (ctxs.get ⟨j, hj⟩) = true →
      (∀ (j2 : Nat) (hj2 : j2 < ctxs.length), j2 < j →
        tripleMatches (sources.get ⟨i, hi⟩) (ctxs.get ⟨j2, hj2⟩) = false) →
      ((attachChunks sources ctxs).get
          ⟨i, by simpa [attachChunks] using hi⟩).chunk =
        some (ctxs.get ⟨j, hj⟩).chunk) ∧
    ((∀ c ∈ ctxs, tripleMatches (sources.get ⟨i, hi⟩) c = false) →
      ((attachChunks sources ctxs).get
          ⟨i, by simpa [attachChunks] using hi⟩).chunk =
        (sources.get ⟨i, hi⟩).chunk) := by
  have hget : (attachChunks sources ctxs).get
      ⟨i, by simpa [attachChunks] using hi⟩ =
      (match ctxs.find? (fun c => tripleMatches (sources.get ⟨i, hi⟩) c) with
       | some c => { sources.get ⟨i, hi⟩ with chunk := some c.chunk }
       | none => sources.get ⟨i, hi⟩) := by
    unfold attachChunks
    rw [List.get_map]
  constructor
  · intro j hj hmatch hfirst
    rw [hget,
      find?_eq_some_of_first (fun c => tripleMatches (sources.get ⟨i, hi⟩) c)
        ctxs j hj hmatch hfirst]
  · intro hnone
    rw [hget, List.find?_eq_none.mpr (fun c hc => by
      have h2 := hnone c hc
      simp only [List.get_eq_getElem] at h2
      simp [h2])]

/-- Witness for C10: two contexts share one triple; the single source entry
receives the first one's chunk text. -/
theorem attach_first_match_witness :
    ((attachChunks [⟨some "a.pdf", some 2, none, none⟩]
        [⟨"first chunk", some "a.pdf", some 2, none⟩,
         ⟨"second chunk", some "a.pdf", some 2, none⟩]).get ⟨0, by decide⟩).chunk =
      some "first chunk" :=
  (attach_first_match [⟨some "a.pdf", some 2, none, none⟩]
      [⟨"first chunk", some "a.pdf", some 2, none⟩,
       ⟨"second chunk", some "a.pdf", some 2, none⟩] 0 (by decide)).1
    0 (by decide) (by decide)
    (fun j2 hj2 hlt => absurd hlt (Nat.not_lt_zero j2))

end MedAssist
